import Mathlib

/-!
Verification of the Mason daemon's scheduling/dispatch engine.

This development gives a shallow embedding, in Lean, of the core of the
Mason orchestration daemon — the task compiler (`bin/task_compiler.py`),
the provider registry (`bin/lib/provider_registry.py`), the provider
selector (`bin/provider_selector.py`) and the execution loop
(`MasonDaemon._execute_task` in `bin/mason_daemon.py`) — and proves, or
refutes, the specified properties of those components.

Modelling conventions:
- Python strings are modelled as `List Char` (a Python `str` is a sequence
  of code points); the string operations the code uses (`strip`, `split`,
  slicing, `startswith`, membership) are defined below by structural
  recursion so that concrete runs reduce inside the kernel.
- `datetime.now()` is modelled by an explicit `now : Nat` argument threaded
  to every operation that reads the clock; `now + timedelta(seconds=c)` is
  `now + c`.
- Python float scores (`1/priority * success_rate * confidence_weight`)
  are modelled exactly as non-negative rationals kept as unreduced
  numerator/denominator pairs of naturals (`Score` below); the claims
  proved here depend only on the relative order of scores, never on float
  rounding.
- External collaborators (QA queue, backlog, provider adapters) are
  modelled as oracles: per-iteration functions supplying their responses,
  exactly in the places where the daemon consults them.
- Python dicts keyed by provider name are association lists.
-/

namespace Mason

/-- A Python `str`, viewed as its sequence of code points. -/
abbrev Str := List Char

/-! ## Text helpers (Python string builtins used by the task compiler) -/

/-- Python `str.strip()` with no argument: remove leading and trailing
whitespace. -/
def pyStrip (s : Str) : Str :=
  ((s.dropWhile Char.isWhitespace).reverse.dropWhile Char.isWhitespace).reverse

/-- Python `str.split(c)` for a one-character separator: `""` splits to
`[""]`, and every occurrence of the separator produces a boundary. -/
def splitOnChar (c : Char) : Str → List Str
  | [] => [[]]
  | a :: rest =>
    let r := splitOnChar c rest
    if a = c then [] :: r
    else
      match r with
      | [] => [[a]]
      | h :: t => (a :: h) :: t

/-- Python `line.split('.', 1)[1]`: everything after the first `'.'`.
The compiler only evaluates this under a guard that guarantees a dot is
present in `line[:3]`, so the `[]` fallback is unreachable there. -/
def afterFirstDot : Str → Str
  | [] => []
  | c :: rest => if c = '.' then rest else afterFirstDot rest

/-! ## TaskCompiler (`bin/task_compiler.py`) -/

/-- Story from DevBacklog (`bin/lib/backlog_client.py`). -/
structure Story where
  id : Int
  title : Str
  narrative : Str
  acceptanceCriteria : Str
  epicId : Option Int
  priority : Int
  estPoints : Option Int
deriving DecidableEq

/-- `identity` group of a TaskPacket. -/
structure TaskIdentity where
  taskId : Str
  storyId : Int
  epicId : Option Int
deriving DecidableEq

/-- `goal` group of a TaskPacket. -/
structure TaskGoal where
  title : Str
  description : Str
  successCriteria : List Str
deriving DecidableEq

/-- `constraints` group of a TaskPacket. -/
structure TaskConstraints where
  fileScope : List Str
  styleRules : List Str
  forbidden : List Str
deriving DecidableEq

/-- `inputs` group of a TaskPacket. -/
structure TaskInputs where
  contextFiles : List Str
  dependencies : List Str
  retryGuidance : List Str
deriving DecidableEq

/-- `execution` group of a TaskPacket. -/
structure TaskExecution where
  maxAttempts : Nat
  currentAttempt : Nat
  timeoutSeconds : Nat
deriving DecidableEq

/-- `provider_context` group of a TaskPacket. -/
structure TaskProviderContext where
  preferredModel : Option Str
  complexityHint : Str
deriving DecidableEq

/-- `metadata` group of a TaskPacket. -/
structure TaskMetadata where
  createdAt : Str
  sourceDomain : Str
  priority : Int
  estPoints : Option Int
deriving DecidableEq

/-- TaskPacket v1 (the dict built by `TaskCompiler._create_task_packet`). -/
structure TaskPacket where
  identity : TaskIdentity
  goal : TaskGoal
  constraints : TaskConstraints
  inputs : TaskInputs
  execution : TaskExecution
  providerContext : TaskProviderContext
  metadata : TaskMetadata
deriving DecidableEq

/-- The two config values `TaskCompiler.__init__` reads
(`config.max_tasks_per_story` and `config.default_max_attempts`). -/
structure CompilerConfig where
  maxTasks : Nat
  defaultMaxAttempts : Nat
deriving DecidableEq

/-- `TaskCompiler._parse_acceptance_criteria`: split on newlines, strip
whitespace, strip one leading bullet marker from {-, *, •, ✓}, strip a
leading decimal-number-plus-dot when the first character is a digit and a
dot occurs within the first three characters; drop empty lines. -/
def stripBullet (line : Str) : Str :=
  match line with
  | [] => line
  | c :: rest =>
    if c = '-' || c = '*' || c = '•' || c = '✓' then pyStrip rest else line

/-- The numbered-marker strip inside `_parse_acceptance_criteria`:
`if line and line[0].isdigit() and '.' in line[:3]`. -/
def stripNumber (line : Str) : Str :=
  match line with
  | [] => line
  | c :: _ =>
    if c.isDigit && (line.take 3).contains '.' then pyStrip (afterFirstDot line) else line

/-- `TaskCompiler._parse_acceptance_criteria`. An empty (falsy) input
returns `[]` immediately; otherwise the text is stripped, split on
newlines, each line processed, and empty results discarded. -/
def parseAcceptanceCriteria (text : Str) : List Str :=
  if text.isEmpty then []
  else
    ((splitOnChar '\n' (pyStrip text)).map
      (fun line => stripNumber (stripBullet (pyStrip line)))).filter (fun l => !l.isEmpty)

/-- `TaskCompiler._estimate_complexity`. -/
def estimateComplexity (story : Story) : Str :=
  match story.estPoints with
  | none => "medium".data
  | some p => if p ≤ 2 then "low".data else if p ≤ 5 then "medium".data else "high".data

/-- `TaskCompiler._infer_file_scope` (returns `[]` in this version). -/
def inferFileScope (_story : Story) : List Str := []

/-- `TaskCompiler._create_task_packet`. The fresh `uuid.uuid4()` and the
`datetime.utcnow()` timestamp are nondeterministic inputs, passed here as
the `taskId` and `createdAt` arguments. -/
def createTaskPacket (cfg : CompilerConfig) (story : Story) (taskId : Str)
    (createdAt : Str) (criteria : List Str) (taskIndex : Nat) : TaskPacket :=
  let title :=
    if taskIndex > 0 then
      story.title ++ " (Part ".data ++ Nat.toDigits 10 (taskIndex + 1) ++ ")".data
    else story.title
  { identity := { taskId := taskId, storyId := story.id, epicId := story.epicId }
    goal := { title := title, description := story.narrative, successCriteria := criteria }
    constraints := { fileScope := inferFileScope story, styleRules := [], forbidden := [] }
    inputs := { contextFiles := [], dependencies := [], retryGuidance := [] }
    execution := { maxAttempts := cfg.defaultMaxAttempts, currentAttempt := 0,
                   timeoutSeconds := 300 }
    providerContext := { preferredModel := none, complexityHint := estimateComplexity story }
    metadata := { createdAt := createdAt, sourceDomain := "devbacklog".data,
                  priority := story.priority, estPoints := story.estPoints } }

/-- The chunking `for i in range(0, len(criteria), 3): group = criteria[i:i+3]`
inside `TaskCompiler.compile`. -/
def chunkList {α : Type} : List α → List (List α)
  | [] => []
  | [a] => [[a]]
  | [a, b] => [[a, b]]
  | a :: b :: c :: rest => [a, b, c] :: chunkList rest

/-- The appending loop of `TaskCompiler.compile` over the (already capped)
chunks: the j-th chunk becomes a packet with `task_index = j`. -/
def buildPackets (cfg : CompilerConfig) (story : Story) (ids : Nat → Str)
    (createdAt : Str) : Nat → List (List Str) → List TaskPacket
  | _, [] => []
  | j, g :: gs =>
    createTaskPacket cfg story (ids j) createdAt g j
      :: buildPackets cfg story ids createdAt (j + 1) gs

/-- `TaskCompiler.compile`. `ids j` supplies the uuid of the packet built
from chunk `j`. The source appends a packet for chunk `j` exactly when
fewer than `max_tasks` packets have been emitted so far, which (because
chunks are visited in order) is the same as keeping the first `max_tasks`
chunks. -/
def compile (cfg : CompilerConfig) (ids : Nat → Str) (createdAt : Str)
    (story : Story) : List TaskPacket :=
  let criteria := parseAcceptanceCriteria story.acceptanceCriteria
  if criteria.length ≤ 3 then
    [createTaskPacket cfg story (ids 0) createdAt criteria 0]
  else
    buildPackets cfg story ids createdAt 0 ((chunkList criteria).take cfg.maxTasks)

/-- `TaskCompiler.enrich_for_retry`: shallow-copy the packet, replace
`inputs.retry_guidance` by the given list (on a copy of `inputs`) and
`execution.current_attempt` by the given attempt (on a copy of
`execution`). -/
def enrichForRetry (p : TaskPacket) (guidance : List Str) (attempt : Nat) : TaskPacket :=
  { p with
    inputs := { p.inputs with retryGuidance := guidance }
    execution := { p.execution with currentAttempt := attempt } }

/-! ## Scores (Python float arithmetic in `ProviderSelector._score_providers`)

A score is a non-negative rational kept as an unreduced fraction. The
source computes `1.0 / priority * success_rate * confidence_weight` in
float arithmetic and compares scores when sorting; this model computes the
same products exactly. -/

/-- A non-negative rational `num / den`, unreduced. -/
structure Score where
  num : Nat
  den : Nat
deriving DecidableEq

/-- Exact product of two scores. -/
def Score.mul (a b : Score) : Score := ⟨a.num * b.num, a.den * b.den⟩

/-- Strict comparison `a < b` by cross-multiplication (exact, given
positive denominators). -/
def Score.blt (a b : Score) : Bool := a.num * b.den < b.num * a.den

/-! ## ProviderRegistry (`bin/lib/provider_registry.py`) -/

/-- Runtime state for a provider (`ProviderState`). Timestamps are `Nat`
instants. -/
structure ProviderState where
  available : Bool := true
  rateLimitedUntil : Option Nat := none
  consecutiveFailures : Nat := 0
  lastSuccess : Option Nat := none
  lastFailure : Option Nat := none
deriving DecidableEq

/-- Provider definition from providers.json (`ProviderDefinition`). The
opaque adapter-specific `config` dict is not modelled: nothing in the
registry, selector or engine reads it. -/
structure ProviderDefinition where
  name : Str
  priority : Nat
  type : Str
  adapter : Str
  rateLimitStrategy : Str
  confidenceWeight : Score
  enabled : Bool
deriving DecidableEq

/-- The registry's two dicts, keyed by provider name: `_definitions`
(kept as the insertion-ordered list of definitions) and `_states`. -/
structure ProviderRegistry where
  definitions : List ProviderDefinition
  states : List (Str × ProviderState)
deriving DecidableEq

/-- Lookup in an association list (a Python dict read). -/
def lookupIn : List (Str × ProviderState) → Str → Option ProviderState
  | [], _ => none
  | (n, st) :: rest, name => if n = name then some st else lookupIn rest name

/-- `self._states[name]` / `self._states.get(name)`. -/
def lookupState (reg : ProviderRegistry) (name : Str) : Option ProviderState :=
  lookupIn reg.states name

/-- Replace the value stored under `name` in a states dict, leaving other
keys untouched. -/
def updateStates (name : Str) (st : ProviderState) :
    List (Str × ProviderState) → List (Str × ProviderState)
  | [] => []
  | (n, s) :: rest =>
    (if n = name then (n, st) else (n, s)) :: updateStates name st rest

/-- Assignment `self._states[name].field = ...`: replace the state stored
under `name`. -/
def setState (reg : ProviderRegistry) (name : Str) (st : ProviderState) : ProviderRegistry :=
  { reg with states := updateStates name st reg.states }

/-- `ProviderRegistry.get_enabled_providers`: enabled definitions sorted
by ascending priority. Python's `sorted` is stable; `List.insertionSort`
with `≤` on the key is stable in the same sense. -/
def getEnabledProviders (reg : ProviderRegistry) : List ProviderDefinition :=
  (reg.definitions.filter (fun p => p.enabled)).insertionSort
    (fun a b => a.priority ≤ b.priority)

/-- `ProviderRegistry.get_available_providers`: enabled providers whose
state is not rate-limited into the future (`rate_limited_until > now`
skips) and is marked available. The registry constructor stores a state
for every definition, so the `none` lookup branch is unreachable on
registries built by the daemon. -/
def getAvailableProviders (reg : ProviderRegistry) (now : Nat) : List ProviderDefinition :=
  (getEnabledProviders reg).filter (fun d =>
    match lookupState reg d.name with
    | some st =>
      (match st.rateLimitedUntil with
       | none => true
       | some t => decide (t ≤ now)) && st.available
    | none => false)

/-- `ProviderRegistry.get_local_providers`. -/
def getLocalProviders (reg : ProviderRegistry) (now : Nat) : List ProviderDefinition :=
  (getAvailableProviders reg now).filter (fun p => decide (p.type = "local".data))

/-- The Python idiom `cooldown_seconds or self.config.rate_limit_cooldown`:
`None` and the falsy `0` both select the config default. -/
def effectiveCooldown (cooldownSeconds : Option Nat) (cfgDefault : Nat) : Nat :=
  match cooldownSeconds with
  | none => cfgDefault
  | some n => if n = 0 then cfgDefault else n

/-- `ProviderRegistry.mark_rate_limited(name, cooldown_seconds)`.
`cfgCooldown` is `config.rate_limit_cooldown`. Unknown names are no-ops. -/
def markRateLimited (cfgCooldown : Nat) (reg : ProviderRegistry) (name : Str)
    (cooldownSeconds : Option Nat) (now : Nat) : ProviderRegistry :=
  match lookupState reg name with
  | none => reg
  | some st =>
    setState reg name
      { st with
        rateLimitedUntil := some (now + effectiveCooldown cooldownSeconds cfgCooldown)
        consecutiveFailures := st.consecutiveFailures + 1 }

/-- `ProviderRegistry.mark_success(name)`. -/
def markSuccess (reg : ProviderRegistry) (name : Str) (now : Nat) : ProviderRegistry :=
  match lookupState reg name with
  | none => reg
  | some st =>
    setState reg name
      { st with lastSuccess := some now, consecutiveFailures := 0, rateLimitedUntil := none }

/-- `ProviderRegistry.mark_failure(name, is_rate_limit)`: record the
failure, bump the failure counter, and when `is_rate_limit` additionally
call `mark_rate_limited` (which bumps the counter again). -/
def markFailure (cfgCooldown : Nat) (reg : ProviderRegistry) (name : Str)
    (isRateLimit : Bool) (now : Nat) : ProviderRegistry :=
  match lookupState reg name with
  | none => reg
  | some st =>
    let reg1 := setState reg name
      { st with lastFailure := some now, consecutiveFailures := st.consecutiveFailures + 1 }
    if isRateLimit then markRateLimited cfgCooldown reg1 name none now else reg1

/-! ## ProviderSelector (`bin/provider_selector.py`) -/

/-- Per-provider statistics snapshot from the QA service
(`qaqueue_client.ProviderStats`). -/
structure ProviderStats where
  name : Str
  totalRuns : Nat
  successes : Nat
  failures : Nat
  providerFailures : Nat
  successRate : Score
  avgDurationMs : Nat
deriving DecidableEq

/-- Context for one provider-selection decision (`SelectionContext`). -/
structure SelectionContext where
  taskId : Str
  attempt : Nat
  maxAttempts : Nat
  providersTried : List Str
  lastFailureReason : Option Str
  isRetry : Bool
deriving DecidableEq

/-- `self._cached_stats.get(name)` on the stats dict. -/
def lookupStats : List (Str × ProviderStats) → Str → Option ProviderStats
  | [], _ => none
  | (n, st) :: rest, name => if n = name then some st else lookupStats rest name

/-- `ProviderSelector._score_providers`: for each provider,
`(1.0 / priority) * success_rate * confidence_weight`, where the success
rate is the cached value when `total_runs > 0` and the neutral `0.5`
otherwise. -/
def scoreProviders (stats : List (Str × ProviderStats))
    (providers : List ProviderDefinition) : List (ProviderDefinition × Score) :=
  providers.map (fun p =>
    let priorityScore : Score := ⟨1, p.priority⟩
    let successRate : Score :=
      match lookupStats stats p.name with
      | some s => if s.totalRuns > 0 then s.successRate else ⟨1, 2⟩
      | none => ⟨1, 2⟩
    (p, (priorityScore.mul successRate).mul p.confidenceWeight))

/-- Fold keeping the first element attaining the maximal score. -/
def pickBestAux (best : ProviderDefinition) (bestScore : Score) :
    List (ProviderDefinition × Score) → ProviderDefinition
  | [] => best
  | (p, s) :: rest =>
    if bestScore.blt s then pickBestAux p s rest else pickBestAux best bestScore rest

/-- `scored.sort(key=..., reverse=True); selected = scored[0][0]`: the
stable descending sort followed by taking the head returns the first
element attaining the maximal score, which is what this fold computes. -/
def pickBest : List (ProviderDefinition × Score) → Option ProviderDefinition
  | [] => none
  | (p, s) :: rest => some (pickBestAux p s rest)

/-- Steps 1-2 of `ProviderSelector.select`: the available providers with
`providers_tried` removed, falling back to the full available list when
that filter leaves nothing. -/
def selectCandidates (reg : ProviderRegistry) (now : Nat)
    (ctx : SelectionContext) : List ProviderDefinition :=
  if ((getAvailableProviders reg now).filter
      (fun p => !(decide (p.name ∈ ctx.providersTried)))).isEmpty then
    getAvailableProviders reg now
  else
    (getAvailableProviders reg now).filter
      (fun p => !(decide (p.name ∈ ctx.providersTried)))

/-- The high-load branch of `ProviderSelector.select`. `totalActive` is
the QA load reading: `none` models the load check raising (the `except`
branch keeps the candidates); under high load, candidates are narrowed to
the available local providers unless that intersection is empty. -/
def applyLoadFilter (reg : ProviderRegistry) (now : Nat) (totalActive : Option Nat)
    (threshold : Nat) (cs : List ProviderDefinition) : List ProviderDefinition :=
  match totalActive with
  | none => cs
  | some t =>
    if threshold < t then
      if (getLocalProviders reg now).isEmpty then cs
      else
        if (cs.filter (fun p => decide (p ∈ getLocalProviders reg now))).isEmpty then cs
        else cs.filter (fun p => decide (p ∈ getLocalProviders reg now))
    else cs

/-- `ProviderSelector.select`. `stats` is the statistics cache as it
stands after the best-effort refresh (`_refresh_stats`). Returns `none`
exactly when no candidate remains after the fallback. -/
def select (reg : ProviderRegistry) (now : Nat) (totalActive : Option Nat)
    (threshold : Nat) (stats : List (Str × ProviderStats))
    (ctx : SelectionContext) : Option ProviderDefinition :=
  if (selectCandidates reg now ctx).isEmpty then none
  else
    pickBest (scoreProviders stats
      (applyLoadFilter reg now totalActive threshold (selectCandidates reg now ctx)))

/-! ## ExecutionEngine (`MasonDaemon._execute_task`) -/

/-- `ArtifactBundle.execution_status`, documented in
`bin/lib/providers/base.py` as `"success" | "failure" |
"provider_failure"`. The engine's dispatch treats any status other than
the first two exactly like `failure` (its `else` branch). -/
inductive ExecStatus where
  | success
  | failure
  | providerFailure
deriving DecidableEq

/-- The two fields of an `ArtifactBundle` that the engine's control flow
reads (`execution_status` and `is_rate_limit`). The remaining fields are
only forwarded verbatim to `qaqueue.complete_run`, an external call whose
failure is logged and ignored. -/
structure ArtifactBundle where
  executionStatus : ExecStatus
  isRateLimit : Bool
deriving DecidableEq

/-- How one `_execute_task` invocation ended. -/
inductive ExitKind where
  | success
  | exhausted
  | noProvider
  | startRunFailed
  | noPacket
  | outOfFuel
deriving DecidableEq

/-- The engine's external collaborators, as oracles indexed by the loop
iteration `k`. -/
structure EngineEnv where
  /-- Whether `self._providers` holds an initialized adapter for a name. -/
  initialized : Str → Bool
  /-- Whether `qaqueue.start_run` succeeds on iteration `k`. -/
  startRunOk : Nat → Bool
  /-- The `ArtifactBundle` returned by `provider.generate` on iteration `k`. -/
  results : Nat → ArtifactBundle
  /-- `datetime.now()` as observed on iteration `k`. -/
  now : Nat → Nat
  /-- `config.rate_limit_cooldown`. -/
  defaultCooldown : Nat

/-- Final state of one `_execute_task` invocation: the mutated context,
the mutated registry, the exit path taken, and the statuses of the
provider invocations (`provider.generate` calls) in order. -/
structure EngineResult where
  ctx : SelectionContext
  registry : ProviderRegistry
  exit : ExitKind
  invocations : List ExecStatus
deriving DecidableEq

/-- `MasonDaemon._execute_task`, with the selector abstracted as
`selectF` (iteration, registry, context ↦ chosen provider name). Each
loop iteration consumes one unit of `fuel`; a run that still has not
exited when fuel runs out reports `outOfFuel` (the source loop has no
such bound — nontermination of the source is exactly `outOfFuel` for
every fuel). Per iteration, mirroring the source: check
`attempt < max_attempts`; select (none → exit); look up the adapter
(absent → record the name, continue without consuming an attempt);
`start_run` (failure → exit); without a packet, exit; otherwise dispatch
on the bundle's status: success reports and returns, `provider_failure`
reports, records the name and continues, anything else reports, records
the name, increments `attempt` and continues. -/
def execTask (env : EngineEnv)
    (selectF : Nat → ProviderRegistry → SelectionContext → Option Str)
    (hasPacket : Bool) :
    Nat → Nat → ProviderRegistry → SelectionContext → EngineResult
  | 0, _, reg, ctx => ⟨ctx, reg, .outOfFuel, []⟩
  | fuel + 1, k, reg, ctx =>
    if ctx.attempt < ctx.maxAttempts then
      match selectF k reg ctx with
      | none => ⟨ctx, reg, .noProvider, []⟩
      | some name =>
        if env.initialized name then
          if env.startRunOk k then
            if hasPacket then
              let b := env.results k
              match b.executionStatus with
              | .success =>
                ⟨ctx, markSuccess reg name (env.now k), .success, [ExecStatus.success]⟩
              | .providerFailure =>
                let reg1 := markFailure env.defaultCooldown reg name b.isRateLimit (env.now k)
                let ctx1 := { ctx with providersTried := ctx.providersTried ++ [name] }
                let r := execTask env selectF hasPacket fuel (k + 1) reg1 ctx1
                { r with invocations := ExecStatus.providerFailure :: r.invocations }
              | .failure =>
                let reg1 := markFailure env.defaultCooldown reg name false (env.now k)
                let ctx1 := { ctx with
                  providersTried := ctx.providersTried ++ [name]
                  attempt := ctx.attempt + 1 }
                let r := execTask env selectF hasPacket fuel (k + 1) reg1 ctx1
                { r with invocations := ExecStatus.failure :: r.invocations }
            else ⟨ctx, reg, .noPacket, []⟩
          else ⟨ctx, reg, .startRunFailed, []⟩
        else
          execTask env selectF hasPacket fuel (k + 1) reg
            { ctx with providersTried := ctx.providersTried ++ [name] }
    else ⟨ctx, reg, .exhausted, []⟩

/-- The source loop, run on the given inputs, eventually exits (there is
a fuel budget under which it does not run out of fuel). -/
def engineTerminates (env : EngineEnv)
    (selectF : Nat → ProviderRegistry → SelectionContext → Option Str)
    (hasPacket : Bool) (k : Nat) (reg : ProviderRegistry)
    (ctx : SelectionContext) : Prop :=
  ∃ fuel, (execTask env selectF hasPacket fuel k reg ctx).exit ≠ ExitKind.outOfFuel

/-- The real selector plugged into the engine: iteration `k` consults the
registry as `select` does, with the QA load and statistics responses for
that iteration supplied by oracles. -/
def selectOracle (totalActive : Nat → Option Nat) (threshold : Nat)
    (stats : Nat → List (Str × ProviderStats)) (now : Nat → Nat) :
    Nat → ProviderRegistry → SelectionContext → Option Str :=
  fun k reg ctx =>
    (select reg (now k) (totalActive k) threshold (stats k) ctx).map (fun p => p.name)

/-! ## Concrete scenarios used to settle individual claims -/

/-- Fresh runtime state, as `_load_providers` creates it. -/
def freshState : ProviderState := {}

/-- Provider A of the two-provider engine runs: api type, priority 1,
confidence weight 1. -/
def defnA : ProviderDefinition :=
  ⟨"A".data, 1, "api".data, "goose".data, "none".data, ⟨1, 1⟩, true⟩

/-- Provider B of the two-provider engine runs: api type, priority 2,
confidence weight 1. -/
def defnB : ProviderDefinition :=
  ⟨"B".data, 2, "api".data, "goose".data, "none".data, ⟨1, 1⟩, true⟩

/-- A local provider with deliberately poor priority (9), so that any
api provider outscores it. -/
def defnL : ProviderDefinition :=
  ⟨"L".data, 9, "local".data, "ollama".data, "none".data, ⟨1, 1⟩, true⟩

/-- Registry holding A and B with fresh states. -/
def regAB : ProviderRegistry :=
  ⟨[defnA, defnB], [("A".data, freshState), ("B".data, freshState)]⟩

/-- Registry holding A (api) and L (local) with fresh states. -/
def regAL : ProviderRegistry :=
  ⟨[defnA, defnL], [("A".data, freshState), ("L".data, freshState)]⟩

/-- A fresh selection context with the given attempt bound. -/
def freshCtx (maxAttempts : Nat) : SelectionContext :=
  ⟨"task-1".data, 0, maxAttempts, [], none, false⟩

/-- Engine environment in which every adapter is initialized, every
`start_run` succeeds, and every provider invocation returns the same
bundle; the clock reads 0 and the configured cooldown is 300. -/
def steadyEnv (b : ArtifactBundle) : EngineEnv :=
  ⟨fun _ => true, fun _ => true, fun _ => b, fun _ => 0, 300⟩

/-- The real selector with the load check raising (candidates kept) and
an empty statistics cache, as in the C8 scenario. -/
def plainSelect : Nat → ProviderRegistry → SelectionContext → Option Str :=
  selectOracle (fun _ => none) 50 (fun _ => []) (fun _ => 0)

/-- The C8 run: A and B available, every invocation a real `failure`,
`max_attempts = 2`. -/
def runC8 : EngineResult :=
  execTask (steadyEnv ⟨.failure, false⟩) plainSelect true 10 0 regAB (freshCtx 2)

/-- The C8 run with `max_attempts = 3`: the third iteration exercises the
fall-back to the full available list and reuses A. -/
def runC8' : EngineResult :=
  execTask (steadyEnv ⟨.failure, false⟩) plainSelect true 10 0 regAB (freshCtx 3)

/-- The C1 run witnessing more provider invocations than `max_attempts`:
three `provider_failure` iterations, then a real failure, with
`max_attempts = 1`. -/
def runC1 : EngineResult :=
  execTask
    ⟨fun _ => true, fun _ => true,
     fun k => if k < 3 then ⟨.providerFailure, false⟩ else ⟨.failure, false⟩,
     fun _ => 0, 300⟩
    (fun _ _ _ => some "A".data) true 10 0 regAB (freshCtx 1)

/-- Default compiler config: `max_tasks_per_story = 10`,
`default_max_attempts = 3` (the config defaults in `lib/config.py`). -/
def cfgDefault : CompilerConfig := ⟨10, 3⟩

/-- A constant uuid supply (the packet identity is irrelevant to the
claims that use this). -/
def constIds : Nat → Str := fun _ => "tid".data

/-- A story whose acceptance-criteria text is empty. -/
def storyNoCriteria : Story :=
  ⟨1, "T".data, "n".data, "".data, none, 0, none⟩

/-- A story with seven parsed acceptance criteria. -/
def storySeven : Story :=
  ⟨2, "T".data, "n".data, "- a\n- b\n- c\n- d\n- e\n- f\n- g".data, none, 0, none⟩

/-- Single-provider registry for the nontermination counterexample. -/
def regP : ProviderRegistry :=
  ⟨[⟨"P".data, 1, "api".data, "goose".data, "none".data, ⟨1, 1⟩, true⟩],
   [("P".data, freshState)]⟩

/-- Environment in which every invocation is a `provider_failure` that is
not a rate limit: the provider stays available forever. -/
def envLoop : EngineEnv := steadyEnv ⟨ExecStatus.providerFailure, false⟩

/-- A selector-choice sequence that always picks P (which the real
selector also does on `regP`, by the full-list fallback). -/
def selLoop : Nat → ProviderRegistry → SelectionContext → Option Str :=
  fun _ _ _ => some "P".data

/-- A context in which provider A has already been tried. -/
def ctxTriedA : SelectionContext :=
  ⟨"task-1".data, 0, 3, ["A".data], none, false⟩

/-! ## Helper lemmas -/

theorem chunkList_flatten {α : Type} : ∀ l : List α, (chunkList l).flatten = l
  | [] => rfl
  | [_] => rfl
  | [_, _] => rfl
  | _ :: _ :: _ :: rest => by
    simp [chunkList, List.flatten, chunkList_flatten rest]

theorem chunkList_get {α : Type} :
    ∀ (l : List α) (i : Nat) (h : i < (chunkList l).length),
      (chunkList l).get ⟨i, h⟩ = (l.drop (3 * i)).take 3
  | [], i, h => by simp [chunkList] at h
  | [a], i, h => by
    simp [chunkList] at h
    subst h
    rfl
  | [a, b], i, h => by
    simp [chunkList] at h
    subst h
    rfl
  | a :: b :: c :: rest, 0, h => rfl
  | a :: b :: c :: rest, i + 1, h => by
    have hb : i < (chunkList rest).length := by
      have : (chunkList (a :: b :: c :: rest)).length = (chunkList rest).length + 1 := by
        simp [chunkList]
      omega
    have ih := chunkList_get rest i hb
    show (chunkList rest).get ⟨i, hb⟩ = _
    rw [ih]
    have hd : (a :: b :: c :: rest).drop (3 * (i + 1)) = rest.drop (3 * i) := by
      have h3 : 3 * (i + 1) = 3 + 3 * i := by ring
      rw [h3, ← List.drop_drop]
      rfl
    rw [hd]

theorem buildPackets_length (cfg : CompilerConfig) (story : Story) (ids : Nat → Str)
    (createdAt : Str) : ∀ (j : Nat) (gs : List (List Str)),
      (buildPackets cfg story ids createdAt j gs).length = gs.length
  | _, [] => rfl
  | j, _ :: gs => by
    simp [buildPackets, buildPackets_length cfg story ids createdAt (j + 1) gs]

theorem buildPackets_get (cfg : CompilerConfig) (story : Story) (ids : Nat → Str)
    (createdAt : Str) : ∀ (j : Nat) (gs : List (List Str)) (i : Nat)
      (h : i < (buildPackets cfg story ids createdAt j gs).length)
      (h' : i < gs.length),
      (buildPackets cfg story ids createdAt j gs).get ⟨i, h⟩
        = createTaskPacket cfg story (ids (j + i)) createdAt (gs.get ⟨i, h'⟩) (j + i)
  | j, g :: gs, 0, h, h' => by simp [buildPackets]
  | j, g :: gs, i + 1, h, h' => by
    have hb : i < (buildPackets cfg story ids createdAt (j + 1) gs).length := by
      rw [buildPackets_length]
      exact Nat.lt_of_succ_lt_succ h'
    have ih := buildPackets_get cfg story ids createdAt (j + 1) gs i hb
      (Nat.lt_of_succ_lt_succ h')
    show (buildPackets cfg story ids createdAt (j + 1) gs).get ⟨i, hb⟩ = _
    rw [ih]
    have he : j + 1 + i = j + (i + 1) := by omega
    rw [he]
    rfl

theorem pickBestAux_mem (best : ProviderDefinition) (bestScore : Score) :
    ∀ l : List (ProviderDefinition × Score),
      pickBestAux best bestScore l ∈ best :: l.map Prod.fst
  | [] => by simp [pickBestAux]
  | (p, s) :: rest => by
    simp only [pickBestAux]
    by_cases h : bestScore.blt s
    · simp only [h, if_true]
      have := pickBestAux_mem p s rest
      simp at this ⊢
      tauto
    · simp only [h, if_false]
      have := pickBestAux_mem best bestScore rest
      simp at this ⊢
      tauto

theorem pickBest_mem {l : List (ProviderDefinition × Score)} {q : ProviderDefinition}
    (h : pickBest l = some q) : q ∈ l.map Prod.fst := by
  match l with
  | [] => simp [pickBest] at h
  | (p, s) :: rest =>
    simp only [pickBest, Option.some.injEq] at h
    subst h
    simpa using pickBestAux_mem p s rest

theorem pickBest_isSome {l : List (ProviderDefinition × Score)} (h : l ≠ []) :
    (pickBest l).isSome := by
  match l with
  | [] => exact absurd rfl h
  | (p, s) :: rest => simp [pickBest]

theorem scoreProviders_map_fst (stats : List (Str × ProviderStats)) :
    ∀ ps : List ProviderDefinition, (scoreProviders stats ps).map Prod.fst = ps
  | [] => rfl
  | p :: ps => by
    simpa [scoreProviders] using scoreProviders_map_fst stats ps

theorem applyLoadFilter_subset (reg : ProviderRegistry) (now : Nat)
    (totalActive : Option Nat) (threshold : Nat) (cs : List ProviderDefinition)
    {p : ProviderDefinition} (h : p ∈ applyLoadFilter reg now totalActive threshold cs) :
    p ∈ cs := by
  unfold applyLoadFilter at h
  match totalActive with
  | none => exact h
  | some t =>
    simp only at h
    split at h
    · split at h
      · exact h
      · split at h
        · exact h
        · exact List.mem_of_mem_filter h
    · exact h

theorem applyLoadFilter_ne_nil (reg : ProviderRegistry) (now : Nat)
    (totalActive : Option Nat) (threshold : Nat) {cs : List ProviderDefinition}
    (h : cs ≠ []) : applyLoadFilter reg now totalActive threshold cs ≠ [] := by
  unfold applyLoadFilter
  match totalActive with
  | none => exact h
  | some t =>
    simp only
    split
    · split
      · exact h
      · split
        · exact h
        · next hne => simpa [List.isEmpty_iff] using hne
    · exact h

theorem getLocalProviders_type (reg : ProviderRegistry) (now : Nat)
    {p : ProviderDefinition} (h : p ∈ getLocalProviders reg now) :
    p.type = "local".data := by
  have := List.of_mem_filter h
  simpa using this

theorem select_mem {reg : ProviderRegistry} {now : Nat} {totalActive : Option Nat}
    {threshold : Nat} {stats : List (Str × ProviderStats)} {ctx : SelectionContext}
    {q : ProviderDefinition}
    (h : select reg now totalActive threshold stats ctx = some q) :
    q ∈ applyLoadFilter reg now totalActive threshold (selectCandidates reg now ctx) := by
  unfold select at h
  split at h
  · exact absurd h (by simp)
  · have := pickBest_mem h
    rwa [scoreProviders_map_fst] at this

theorem lookupIn_set (name : Str) (st : ProviderState) :
    ∀ (l : List (Str × ProviderState)) (s : ProviderState), lookupIn l name = some s →
      lookupIn (updateStates name st l) name = some st
  | [], s, h => by simp [lookupIn] at h
  | (n, s0) :: rest, s, h => by
    by_cases hn : n = name
    · subst hn
      show lookupIn ((if n = n then (n, st) else (n, s0)) :: updateStates n st rest) n
        = some st
      rw [if_pos rfl]
      simp [lookupIn]
    · show lookupIn ((if n = name then (n, st) else (n, s0)) :: updateStates name st rest)
        name = some st
      rw [if_neg hn]
      simp only [lookupIn, if_neg hn] at h ⊢
      exact lookupIn_set name st rest s h

theorem lookupState_setState {reg : ProviderRegistry} {name : Str}
    {s : ProviderState} (st : ProviderState) (h : lookupState reg name = some s) :
    lookupState (setState reg name st) name = some st :=
  lookupIn_set name st reg.states s h

/-! ## Claims -/

/-- C1: across one `_execute_task` invocation — any selector choices,
any provider results — the context's `attempt` counter ends exactly
`count` higher than it started, where `count` is the number of provider
invocations whose bundle had `execution_status = failure`; invocations
with `provider_failure` or `success` never move it. Consequently (second
conjunct) a single invocation can call providers more often than
`max_attempts`: the concrete run `runC1` makes 4 provider invocations
with `max_attempts = 1`. -/
theorem c1_attempt_accounting :
    (∀ (env : EngineEnv)
        (selectF : Nat → ProviderRegistry → SelectionContext → Option Str)
        (hasPacket : Bool) (fuel k : Nat) (reg : ProviderRegistry)
        (ctx : SelectionContext),
        (execTask env selectF hasPacket fuel k reg ctx).ctx.attempt
          = ctx.attempt
            + (execTask env selectF hasPacket fuel k reg ctx).invocations.count
                ExecStatus.failure)
    ∧ runC1.ctx.maxAttempts < runC1.invocations.length := by
  refine ⟨?_, by decide⟩
  intro env selectF hasPacket fuel
  induction fuel with
  | zero => intro k reg ctx; rfl
  | succ n ih =>
    intro k reg ctx
    simp only [execTask]
    split
    · split
      · simp
      · split
        · split
          · split
            · split
              · simp
              · simp [ih, List.count_cons]
              · simp [ih, List.count_cons]
                omega
            · simp
          · simp
        · exact ih (k + 1) reg _
    · simp

/-- C2 counterexample: the claim says a story whose criteria parse to
zero criteria compiles to zero TaskPackets; on the code, `compile` of a
story with empty acceptance-criteria text returns one packet (the
`len(criteria) <= 3` branch includes the empty list). -/
theorem c2_counterexample :
    ¬ (compile cfgDefault constIds "t".data storyNoCriteria = []) := by decide

/-- C2 (amended): parsing is total (never raises — the embedding is a
total function) and a malformed criteria string parses to zero criteria,
but `compile` then emits exactly one TaskPacket whose `success_criteria`
is empty, rather than zero packets. -/
theorem c2_zero_criteria_one_packet (cfg : CompilerConfig) (ids : Nat → Str)
    (createdAt : Str) (story : Story)
    (h : parseAcceptanceCriteria story.acceptanceCriteria = []) :
    compile cfg ids createdAt story
      = [createTaskPacket cfg story (ids 0) createdAt [] 0]
    ∧ (createTaskPacket cfg story (ids 0) createdAt [] 0).goal.successCriteria = [] := by
  constructor
  · unfold compile
    rw [h]
    simp
  · rfl

/-- C2 witness: the amended theorem applied to the concrete empty-criteria
story. -/
theorem c2_witness :
    compile cfgDefault constIds "t".data storyNoCriteria
      = [createTaskPacket cfgDefault storyNoCriteria (constIds 0) "t".data [] 0] :=
  (c2_zero_criteria_one_packet cfgDefault constIds "t".data storyNoCriteria (by decide)).1

/-- Auxiliary for the C3 counterexample: with every invocation returning
a non-rate-limit `provider_failure` and the selector always producing P,
the loop never exits — `attempt` stays 0, below `max_attempts = 3`, and
each iteration only grows `providers_tried`. -/
theorem execTask_spins : ∀ (fuel k : Nat) (reg : ProviderRegistry) (tried : List Str),
    (execTask envLoop selLoop true fuel k reg
        ⟨"task-1".data, 0, 3, tried, none, false⟩).exit = ExitKind.outOfFuel
  | 0, _, _, _ => rfl
  | fuel + 1, k, reg, tried => by
    simp only [execTask]
    exact execTask_spins fuel (k + 1) _ (tried ++ ["P".data])

/-- C3 counterexample: the claim asserts the loop exits for any sequence
of selector choices and provider results, including a provider that
always returns `provider_failure` while remaining available; on the code
that very sequence loops forever (no fuel bound suffices), because
`provider_failure` iterations never increment `attempt`. -/
theorem c3_counterexample :
    ¬ engineTerminates envLoop selLoop true 0 regP (freshCtx 3) := by
  intro ht
  obtain ⟨fuel, hne⟩ := ht
  exact hne (execTask_spins fuel 0 regP [])

/-- Auxiliary for the amended C3: when no bundle is a `provider_failure`
and every name has an initialized adapter, each iteration either exits or
increments `attempt`, so `max_attempts - attempt + 1` fuel always
reaches an exit. -/
theorem execTask_exits (env : EngineEnv)
    (selectF : Nat → ProviderRegistry → SelectionContext → Option Str)
    (hasPacket : Bool)
    (hres : ∀ j, (env.results j).executionStatus ≠ ExecStatus.providerFailure)
    (hinit : ∀ n, env.initialized n = true) :
    ∀ (fuel k : Nat) (reg : ProviderRegistry) (ctx : SelectionContext),
      ctx.maxAttempts - ctx.attempt < fuel →
      (execTask env selectF hasPacket fuel k reg ctx).exit ≠ ExitKind.outOfFuel := by
  intro fuel
  induction fuel with
  | zero => intro k reg ctx h; omega
  | succ n ih =>
    intro k reg ctx hfuel
    simp only [execTask]
    split
    · split
      · simp
      · rw [hinit]
        simp only [if_true]
        split
        · split
          · split
            · simp
            · exact absurd (by assumption) (hres k)
            · exact ih (k + 1) _ _ (by simp; omega)
          · simp
        · simp
    · simp

/-- C3 (amended): the loop terminates for every sequence of selector
choices and provider results in which selected providers have initialized
adapters and no invocation returns `provider_failure` (each iteration
then exits or consumes an attempt); with a provider that always returns
`provider_failure` while staying available — or an uninitialized provider
selected forever — the loop does not terminate (see the
counterexample). -/
theorem c3_termination_amended (env : EngineEnv)
    (selectF : Nat → ProviderRegistry → SelectionContext → Option Str)
    (hasPacket : Bool) (k : Nat) (reg : ProviderRegistry) (ctx : SelectionContext)
    (hres : ∀ j, (env.results j).executionStatus ≠ ExecStatus.providerFailure)
    (hinit : ∀ n, env.initialized n = true) :
    engineTerminates env selectF hasPacket k reg ctx :=
  ⟨ctx.maxAttempts - ctx.attempt + 1,
    execTask_exits env selectF hasPacket hres hinit _ k reg ctx (by omega)⟩

/-- C3 witness: the amended theorem applied to the all-real-failure
environment over registry `regAB`. -/
theorem c3_witness :
    engineTerminates (steadyEnv ⟨ExecStatus.failure, false⟩) plainSelect true 0 regAB
      (freshCtx 2) :=
  c3_termination_amended _ _ _ _ _ _ (fun _ h => ExecStatus.noConfusion h) (fun _ => rfl)

/-- C4: `compile`'s decomposition policy. With at most 3 parsed criteria,
exactly one packet carrying all of them; with more, one packet per
consecutive group of 3, capped at `max_tasks_per_story` with the
remaining chunks dropped; every emitted packet's `success_criteria` is
the contiguous slice `criteria[3*i : 3*i+3]`; the chunks concatenate back
to the parsed list; and the i-th packet (i > 0) has the story title
suffixed with ` (Part <i+1>)`. -/
theorem c4_decomposition (cfg : CompilerConfig) (ids : Nat → Str) (createdAt : Str)
    (story : Story) :
    ((parseAcceptanceCriteria story.acceptanceCriteria).length ≤ 3 →
        compile cfg ids createdAt story
          = [createTaskPacket cfg story (ids 0) createdAt
              (parseAcceptanceCriteria story.acceptanceCriteria) 0])
    ∧ (3 < (parseAcceptanceCriteria story.acceptanceCriteria).length →
        (compile cfg ids createdAt story).length
          = min cfg.maxTasks
              (chunkList (parseAcceptanceCriteria story.acceptanceCriteria)).length)
    ∧ (chunkList (parseAcceptanceCriteria story.acceptanceCriteria)).flatten
        = parseAcceptanceCriteria story.acceptanceCriteria
    ∧ (∀ (i : Nat) (h : i < (compile cfg ids createdAt story).length),
        ((compile cfg ids createdAt story).get ⟨i, h⟩).goal.successCriteria
          = ((parseAcceptanceCriteria story.acceptanceCriteria).drop (3 * i)).take 3)
    ∧ (∀ (i : Nat) (h : i < (compile cfg ids createdAt story).length), 0 < i →
        ((compile cfg ids createdAt story).get ⟨i, h⟩).goal.title
          = story.title ++ " (Part ".data ++ Nat.toDigits 10 (i + 1) ++ ")".data) := by
  by_cases hlen : (parseAcceptanceCriteria story.acceptanceCriteria).length ≤ 3
  · have hc : compile cfg ids createdAt story
        = [createTaskPacket cfg story (ids 0) createdAt
            (parseAcceptanceCriteria story.acceptanceCriteria) 0] := by
      unfold compile
      rw [if_pos hlen]
    refine ⟨fun _ => hc, fun h3 => absurd h3 (by omega), chunkList_flatten _, ?_, ?_⟩
    · intro i h
      have h2 := h
      rw [hc] at h2
      simp at h2
      subst h2
      have e0 := List.get_of_eq hc ⟨0, h⟩
      rw [e0]
      show (parseAcceptanceCriteria story.acceptanceCriteria) = _
      rw [Nat.mul_zero, List.drop_zero, List.take_of_length_le hlen]
    · intro i h hi
      have h2 := h
      rw [hc] at h2
      simp at h2
      omega
  · have hc : compile cfg ids createdAt story
        = buildPackets cfg story ids createdAt 0
            ((chunkList (parseAcceptanceCriteria story.acceptanceCriteria)).take
              cfg.maxTasks) := by
      unfold compile
      rw [if_neg hlen]
    have hget : ∀ (i : Nat) (h : i < (compile cfg ids createdAt story).length),
        (compile cfg ids createdAt story).get ⟨i, h⟩
          = createTaskPacket cfg story (ids i) createdAt
              (((parseAcceptanceCriteria story.acceptanceCriteria).drop (3 * i)).take 3)
              i := by
      intro i h
      have h' : i < ((chunkList (parseAcceptanceCriteria story.acceptanceCriteria)).take
          cfg.maxTasks).length := by
        rw [hc, buildPackets_length] at h
        exact h
      have hlt : i < (chunkList (parseAcceptanceCriteria story.acceptanceCriteria)).length := by
        simp at h'
        omega
      have e1 := List.get_of_eq hc ⟨i, h⟩
      rw [e1, buildPackets_get cfg story ids createdAt 0 _ i _ h']
      have e2 : ((chunkList (parseAcceptanceCriteria story.acceptanceCriteria)).take
          cfg.maxTasks).get ⟨i, h'⟩
          = (chunkList (parseAcceptanceCriteria story.acceptanceCriteria)).get ⟨i, hlt⟩ := by
        simp [List.get_take]
      rw [e2, chunkList_get _ i hlt]
      simp
    refine ⟨fun h3 => absurd h3 (by omega), fun _ => ?_, chunkList_flatten _, ?_, ?_⟩
    · rw [hc, buildPackets_length, List.length_take]
    · intro i h
      rw [hget i h]
      rfl
    · intro i h hi
      rw [hget i h]
      simp [createTaskPacket, hi]

/-- C4 witness: the decomposition theorem applied to a story with seven
criteria (three packets of sizes 3, 3, 1 under the default cap of 10). -/
theorem c4_witness :
    (compile cfgDefault constIds "t".data storySeven).length
      = min cfgDefault.maxTasks
          (chunkList (parseAcceptanceCriteria storySeven.acceptanceCriteria)).length :=
  (c4_decomposition cfgDefault constIds "t".data storySeven).2.1 (by decide)

/-- C5: whenever some available provider is outside `providers_tried`,
the selected provider is outside it (through the high-load local filter
as well); when every available provider has been tried, selection falls
back to the full available list (the choice is the same as with an empty
tried list); and `select` returns `none` exactly when no provider is
available. -/
theorem c5_selector_exclusion (reg : ProviderRegistry) (now : Nat)
    (totalActive : Option Nat) (threshold : Nat)
    (stats : List (Str × ProviderStats)) (ctx : SelectionContext) :
    ((∃ p ∈ getAvailableProviders reg now, p.name ∉ ctx.providersTried) →
        ∀ q, select reg now totalActive threshold stats ctx = some q →
          q.name ∉ ctx.providersTried)
    ∧ ((∀ p ∈ getAvailableProviders reg now, p.name ∈ ctx.providersTried) →
        select reg now totalActive threshold stats ctx
          = select reg now totalActive threshold stats
              { ctx with providersTried := [] })
    ∧ (select reg now totalActive threshold stats ctx = none
        ↔ getAvailableProviders reg now = []) := by
  refine ⟨?_, ?_, ?_⟩
  · rintro ⟨p, hpA, hpT⟩ q hq
    have hqc : q ∈ selectCandidates reg now ctx :=
      applyLoadFilter_subset reg now totalActive threshold _ (select_mem hq)
    have hpF : p ∈ (getAvailableProviders reg now).filter
        (fun r => !(decide (r.name ∈ ctx.providersTried))) :=
      List.mem_filter.mpr ⟨hpA, by simpa using hpT⟩
    have hne : ¬ ((getAvailableProviders reg now).filter
        (fun r => !(decide (r.name ∈ ctx.providersTried)))).isEmpty := by
      intro he
      rw [List.isEmpty_iff] at he
      rw [he] at hpF
      exact absurd hpF (List.not_mem_nil p)
    unfold selectCandidates at hqc
    rw [if_neg hne] at hqc
    have := List.of_mem_filter hqc
    simpa using this
  · intro hall
    have h1 : selectCandidates reg now ctx = getAvailableProviders reg now := by
      unfold selectCandidates
      have hnil : (getAvailableProviders reg now).filter
          (fun r => !(decide (r.name ∈ ctx.providersTried))) = [] := by
        rw [List.filter_eq_nil]
        intro a ha
        simpa using hall a ha
      rw [hnil]
      rfl
    have h2 : selectCandidates reg now { ctx with providersTried := [] }
        = getAvailableProviders reg now := by
      unfold selectCandidates
      have hid : (getAvailableProviders reg now).filter
          (fun r => !(decide (r.name ∈ ({ ctx with providersTried := [] }
            : SelectionContext).providersTried))) = getAvailableProviders reg now := by
        apply List.filter_eq_self.mpr
        intro a _
        simp
      rw [hid]
      exact ite_self _
    unfold select
    rw [h1, h2]
  · constructor
    · intro hnone
      unfold select at hnone
      by_cases hcs : (selectCandidates reg now ctx).isEmpty
      · unfold selectCandidates at hcs
        by_cases hf : ((getAvailableProviders reg now).filter
            (fun r => !(decide (r.name ∈ ctx.providersTried)))).isEmpty
        · rw [if_pos hf] at hcs
          exact List.isEmpty_iff.mp hcs
        · rw [if_neg hf] at hcs
          exact absurd hcs hf
      · rw [if_neg hcs] at hnone
        have hne : applyLoadFilter reg now totalActive threshold
            (selectCandidates reg now ctx) ≠ [] :=
          applyLoadFilter_ne_nil reg now totalActive threshold
            (by simpa [List.isEmpty_iff] using hcs)
        have hsc : scoreProviders stats (applyLoadFilter reg now totalActive threshold
            (selectCandidates reg now ctx)) ≠ [] := by
          intro hzero
          apply hne
          have := congrArg (List.map Prod.fst) hzero
          rwa [scoreProviders_map_fst] at this
        have := pickBest_isSome hsc
        rw [hnone] at this
        exact absurd this (by simp)
    · intro hav
      have h1 : selectCandidates reg now ctx = [] := by
        unfold selectCandidates
        rw [hav]
        simp
      unfold select
      rw [h1]
      rfl

/-- C5 witness: on `regAB` with A already tried, the selector's choice
(B) is outside the tried set. -/
theorem c5_witness : defnB.name ∉ ctxTriedA.providersTried :=
  (c5_selector_exclusion regAB 0 none 50 [] ctxTriedA).1
    ⟨defnB, by decide, by decide⟩ defnB (by decide)

/-- C6 counterexample: the claim says `mark_failure(name,
is_rate_limit=True)` increments `consecutive_failures` by exactly one;
on the code it increments twice (once in `mark_failure`, once more in
the nested `mark_rate_limited`): from a fresh state the counter lands at
2, not 1. -/
theorem c6_counterexample :
    ¬ ((lookupState (markFailure 300 regAB "A".data true 7) "A".data).map
        (fun st => st.consecutiveFailures) = some 1) := by decide

/-- C6 (amended): for a known provider, `mark_failure(name,
is_rate_limit=True)` records the failure instant, increments
`consecutive_failures` by exactly two, and sets `rate_limited_until` to
`now` plus the config-default cooldown. -/
theorem c6_mark_failure_rate_limited (cfgCooldown : Nat) (reg : ProviderRegistry)
    (name : Str) (st : ProviderState) (now : Nat)
    (h : lookupState reg name = some st) :
    lookupState (markFailure cfgCooldown reg name true now) name
      = some { st with
               lastFailure := some now
               consecutiveFailures := st.consecutiveFailures + 2
               rateLimitedUntil := some (now + cfgCooldown) } := by
  unfold markFailure
  rw [h]
  simp only [if_true]
  unfold markRateLimited
  rw [lookupState_setState _ h]
  exact lookupState_setState _ (lookupState_setState _ h)

/-- C6 witness: the amended theorem evaluated on `regAB` at instant 7
with the default cooldown 300. -/
theorem c6_witness :
    lookupState (markFailure 300 regAB "A".data true 7) "A".data
      = some { freshState with
               lastFailure := some 7
               consecutiveFailures := freshState.consecutiveFailures + 2
               rateLimitedUntil := some (7 + 300) } :=
  c6_mark_failure_rate_limited 300 regAB "A".data freshState 7 (by decide)

/-- C7: under a successful load check with `total_active` above the
threshold, if the candidate set intersects the available local providers
then the selected provider is local (regardless of scores); if the
intersection is empty the candidate set is kept unchanged. -/
theorem c7_high_load_local (reg : ProviderRegistry) (now t threshold : Nat)
    (stats : List (Str × ProviderStats)) (ctx : SelectionContext)
    (hload : threshold < t) :
    (∀ q, (selectCandidates reg now ctx).filter
          (fun p => decide (p ∈ getLocalProviders reg now)) ≠ [] →
        select reg now (some t) threshold stats ctx = some q →
        q.type = "local".data)
    ∧ (∀ cs : List ProviderDefinition,
        cs.filter (fun p => decide (p ∈ getLocalProviders reg now)) = [] →
        applyLoadFilter reg now (some t) threshold cs = cs) := by
  constructor
  · intro q hne hsel
    have hm := select_mem hsel
    simp only [applyLoadFilter] at hm
    rw [if_pos hload] at hm
    have hlocs : ¬ (getLocalProviders reg now).isEmpty := by
      intro he
      rw [List.isEmpty_iff] at he
      apply hne
      rw [List.filter_eq_nil]
      intro a _
      simp [he]
    rw [if_neg hlocs] at hm
    rw [if_neg (by simpa [List.isEmpty_iff] using hne)] at hm
    have := List.of_mem_filter hm
    exact getLocalProviders_type reg now (by simpa using this)
  · intro cs hempty
    simp only [applyLoadFilter]
    rw [if_pos hload]
    by_cases hlocs : (getLocalProviders reg now).isEmpty
    · rw [if_pos hlocs]
    · rw [if_neg hlocs, hempty]
      rfl

/-- C7 witness: on `regAL` (api provider A with the better score, local
provider L) under reported load 100 against threshold 50, the selector
returns L, and L is local. -/
theorem c7_witness :
    select regAL 0 (some 100) 50 [] (freshCtx 3) = some defnL
      ∧ defnL.type = "local".data :=
  ⟨by decide,
   (c7_high_load_local regAL 0 100 50 [] (freshCtx 3) (by decide)).1 defnL
     (by decide) (by decide)⟩

/-- C8 counterexample: the claim (and spec scenario 4) says that with
`max_attempts = 2` and all-failing providers A and B the engine makes
three invocations with `providers_tried = [A, B, A]`; on the code the
loop condition `attempt < max_attempts` stops the run after the second
real failure, so the third iteration never happens. -/
theorem c8_counterexample :
    ¬ (runC8.ctx.providersTried = ["A".data, "B".data, "A".data]
        ∧ runC8.invocations.length = 3) := by decide

/-- C8 (amended): with `max_attempts = 2` the engine invokes A then B
(two invocations, both real failures), exits with `attempt = 2` and
`providers_tried = [A, B]`, logging exhaustion; the fall-back of the
empty candidate set to the full available list — reusing A — occurs on
the third iteration of the same scenario with `max_attempts = 3`, which
ends with `providers_tried = [A, B, A]` after three invocations. -/
theorem c8_failure_retry_run :
    (runC8.ctx.providersTried = ["A".data, "B".data]
      ∧ runC8.ctx.attempt = 2
      ∧ runC8.exit = ExitKind.exhausted
      ∧ runC8.invocations = [ExecStatus.failure, ExecStatus.failure])
    ∧ (runC8'.ctx.providersTried = ["A".data, "B".data, "A".data]
      ∧ runC8'.ctx.attempt = 3
      ∧ runC8'.exit = ExitKind.exhausted
      ∧ runC8'.invocations
          = [ExecStatus.failure, ExecStatus.failure, ExecStatus.failure]) := by decide

/-- C9: `enrich_for_retry` returns a packet equal to the input except
that `inputs.retry_guidance` is the given list and
`execution.current_attempt` is the given attempt; every other field in
every group is unchanged. The original packet is untouched: the source
copies the packet and the two nested dicts before writing, and the
embedding of the operation is a pure function of the input. -/
theorem c9_enrich_for_retry (p : TaskPacket) (guidance : List Str) (attempt : Nat) :
    (enrichForRetry p guidance attempt).inputs.retryGuidance = guidance
    ∧ (enrichForRetry p guidance attempt).execution.currentAttempt = attempt
    ∧ (enrichForRetry p guidance attempt).identity = p.identity
    ∧ (enrichForRetry p guidance attempt).goal = p.goal
    ∧ (enrichForRetry p guidance attempt).constraints = p.constraints
    ∧ (enrichForRetry p guidance attempt).inputs.contextFiles = p.inputs.contextFiles
    ∧ (enrichForRetry p guidance attempt).inputs.dependencies = p.inputs.dependencies
    ∧ (enrichForRetry p guidance attempt).execution.maxAttempts = p.execution.maxAttempts
    ∧ (enrichForRetry p guidance attempt).execution.timeoutSeconds
        = p.execution.timeoutSeconds
    ∧ (enrichForRetry p guidance attempt).providerContext = p.providerContext
    ∧ (enrichForRetry p guidance attempt).metadata = p.metadata :=
  ⟨rfl, rfl, rfl, rfl, rfl, rfl, rfl, rfl, rfl, rfl, rfl⟩

/-- C10: `mark_rate_limited(name, cooldown_seconds=0)` sets
`rate_limited_until` to `now` plus the configured default cooldown, not
`now + 0`: the Python `cooldown_seconds or self.config.rate_limit_cooldown`
treats the falsy `0` like an absent argument. -/
theorem c10_zero_cooldown_uses_default (cfgCooldown : Nat) (reg : ProviderRegistry)
    (name : Str) (st : ProviderState) (now : Nat)
    (h : lookupState reg name = some st) :
    lookupState (markRateLimited cfgCooldown reg name (some 0) now) name
      = some { st with
               rateLimitedUntil := some (now + cfgCooldown)
               consecutiveFailures := st.consecutiveFailures + 1 } := by
  unfold markRateLimited
  rw [h]
  exact lookupState_setState _ h

/-- C10 witness: on `regAB` with default cooldown 300 at instant 7, an
explicit cooldown of 0 still yields `rate_limited_until = 307`. -/
theorem c10_witness :
    lookupState (markRateLimited 300 regAB "A".data (some 0) 7) "A".data
      = some { freshState with
               rateLimitedUntil := some (7 + 300)
               consecutiveFailures := freshState.consecutiveFailures + 1 } :=
  c10_zero_cooldown_uses_default 300 regAB "A".data freshState 7 (by decide)

end Mason
